import Mathlib

/-!
Verification of the hotel-listing query pipeline of `src/main.py`
(`_ensure_seed_hotels` and `list_hotels`).

Stored records are loosely-typed key/value mappings; the code only ever
reads the keys `_id`, `name`, `location`, `rating`, `reviews`, `image`,
`offers` (and `name`, `price` inside an offer), always through `d.get`
(with or without a default) except for the one bare `o["price"]` access in
the sort key.  A record is therefore embedded as a structure whose fields
are `Option`-valued: `none` models an absent key.  Numbers are embedded as
`ℚ` (prices and ratings are compared and minimised only), counts as `ℤ`.
A Python exception escaping `list_hotels` is embedded as `Except.error ()`.
-/

namespace HotelService

/-- An embedded offer record (`{"name": ..., "price": ...}`); a `none`
field models a missing key. -/
structure OfferDoc where
  name : Option String
  price : Option ℚ
deriving DecidableEq, Repr

/-- A stored hotel record; a `none` field models a missing key. -/
structure HotelDoc where
  oid : Option String
  name : Option String
  location : Option String
  rating : Option ℚ
  reviews : Option ℤ
  image : Option String
  offers : Option (List OfferDoc)
deriving DecidableEq, Repr

/-- The response projection built by `list_hotels` (src/main.py lines
173-181). -/
structure Projection where
  id : String
  name : Option String
  location : Option String
  rating : ℚ
  reviews : ℤ
  image : Option String
  offers : List OfferDoc
deriving DecidableEq, Repr

/-- Python's `str` applied to `d.get("_id")`: `str(None)` is `"None"`. -/
def pyStr (x : Option String) : String :=
  match x with
  | some s => s
  | none => "None"

/-- The fixed demo data of `_ensure_seed_hotels` (src/main.py lines
94-143), in source order. -/
def sample_hotels : List HotelDoc :=
  [ { oid := none
      name := some "Seaside Vista Resort"
      location := some "Miami Beach, USA"
      rating := some (mkRat 89 10)
      reviews := some 2312
      image := some "https://images.unsplash.com/photo-1501117716987-c8e01f2a0a3a?q=80&w=2070&auto=format&fit=crop"
      offers := some
        [ { name := some "Booking.com", price := some 182 },
          { name := some "Expedia", price := some 176 },
          { name := some "Hotels.com", price := some 189 } ] },
    { oid := none
      name := some "Alpine Lodge & Spa"
      location := some "Zermatt, Switzerland"
      rating := some (mkRat 92 10)
      reviews := some 1348
      image := some "https://images.unsplash.com/photo-1528909514045-2fa4ac7a08ba?q=80&w=2070&auto=format&fit=crop"
      offers := some
        [ { name := some "Booking.com", price := some 245 },
          { name := some "Expedia", price := some 239 },
          { name := some "Hotels.com", price := some 252 } ] },
    { oid := none
      name := some "City Center Boutique Hotel"
      location := some "Tokyo, Japan"
      rating := some (mkRat 86 10)
      reviews := some 5120
      image := some "https://images.unsplash.com/photo-1551882547-ff40c63fe5fa?q=80&w=2070&auto=format&fit=crop"
      offers := some
        [ { name := some "Booking.com", price := some 128 },
          { name := some "Expedia", price := some 119 },
          { name := some "Hotels.com", price := some 130 } ] },
    { oid := none
      name := some "Lagoon Overwater Villas"
      location := some "Malé, Maldives"
      rating := some (mkRat 95 10)
      reviews := some 874
      image := some "https://images.unsplash.com/photo-1519710164239-da123dc03ef4?q=80&w=2070&auto=format&fit=crop"
      offers := some
        [ { name := some "Booking.com", price := some 612 },
          { name := some "Expedia", price := some 598 },
          { name := some "Hotels.com", price := some 629 } ] } ]

/-- Embedding of `_ensure_seed_hotels` (src/main.py lines 87-145) acting on
the hotel collection, with storage reachable (`db` not `None`).  The
collaborators `count_documents` and `create_document` live in the
`database` module, which is not under `src/`; they are modelled from the
spec: `count(collection, filter) -> int` and `insert(collection, record)`
appending the record to the collection. -/
def ensure_seed_hotels (store : List HotelDoc) : List HotelDoc :=
  if 0 < store.length then store else store ++ sample_hotels

/-- The storage-level filter built by `list_hotels` (src/main.py lines
158-162): an optional case-insensitive location pattern and an optional
inclusive rating lower bound. -/
structure MongoFilter where
  locationRegexCI : Option String
  ratingGte : Option ℚ
deriving DecidableEq, Repr

/-- Embedding of the filter construction of `list_hotels` (src/main.py
lines 158-162).  Python's `if destination:` is false for both `None` and
the empty string. -/
def buildFilter (destination : Option String) (min_rating : Option ℚ) : MongoFilter :=
  { locationRegexCI :=
      match destination with
      | some d => if d = "" then none else some d
      | none => none
    ratingGte := min_rating }

/-- `startsWith needle hay`: `needle` is an initial segment of `hay`. -/
def startsWith : List Char → List Char → Bool
  | [], _ => true
  | _ :: _, [] => false
  | a :: as, b :: bs => a == b && startsWith as bs

/-- `containsSub needle hay`: `needle` occurs contiguously in `hay`. -/
def containsSub (needle : List Char) : List Char → Bool
  | [] => needle.isEmpty
  | b :: bs => startsWith needle (b :: bs) || containsSub needle bs

/-- Case-insensitive substring test, used to model the `$regex` with
`$options: "i"` of src/main.py line 160 as the spec describes it
(case-insensitive substring match): both sides are case-folded
character-wise before the substring search. -/
def containsCI (needle hay : String) : Bool :=
  containsSub (needle.toList.map Char.toLower) (hay.toList.map Char.toLower)

/-- Modelled from the spec: the document store's predicate evaluation
(`database` module, not under `src/`).  Per §4.1 step 2 the pushed-down
predicate is a case-insensitive substring match of `destination` against
`location` and an inclusive `rating ≥ min_rating`; a record lacking a
filtered field does not match that filter (so it can never be returned
under a destination or rating filter). -/
def matchesFilter (f : MongoFilter) (d : HotelDoc) : Bool :=
  (match f.locationRegexCI with
   | none => true
   | some pat =>
     match d.location with
     | none => false
     | some loc => containsCI pat loc) &&
  (match f.ratingGte with
   | none => true
   | some r =>
     match d.rating with
     | none => false
     | some rr => decide (r ≤ rr))

/-- Modelled from the spec: `get_documents` (`database` module, not under
`src/`) fetches up to `limit` records matching the filter, in collection
order (§4.1 step 3, §6 `find(collection, filter, limit)`). -/
def get_documents (store : List HotelDoc) (f : MongoFilter) (limit : Nat) : List HotelDoc :=
  (store.filter (matchesFilter f)).take limit

/-- Embedding of `best_price` (src/main.py line 170):
`min([o.get("price", 0) for o in offers], default=None)` — a missing
price key contributes `0`; the empty offers list gives `None`. -/
def bestPrice (offers : List OfferDoc) : Option ℚ :=
  match offers.map (fun o => o.price.getD 0) with
  | [] => none
  | p :: ps => some (ps.foldl min p)

/-- Embedding of the skip condition of src/main.py lines 171-172: the
record is kept unless `max_price` and `best_price` are both present and
`best_price > max_price`. -/
def keepUnderMaxPrice (max_price best_price : Option ℚ) : Bool :=
  match max_price, best_price with
  | some mp, some bp => !(decide (mp < bp))
  | _, _ => true

/-- Embedding of the projection of src/main.py lines 173-181; every
coercion falls back to a default (`rating` → `0.0`, `reviews` → `0`,
`offers` → `[]`), and `str(d.get("_id"))` never fails. -/
def projectDoc (d : HotelDoc) : Projection :=
  { id := pyStr d.oid
    name := d.name
    location := d.location
    rating := d.rating.getD 0
    reviews := d.reviews.getD 0
    image := d.image
    offers := d.offers.getD [] }

/-- Embedding of the `max_price` post-filter loop of src/main.py lines
167-181: each fetched record is projected unless skipped by
`keepUnderMaxPrice`. -/
def postFilter (max_price : Option ℚ) (docs : List HotelDoc) : List Projection :=
  docs.filterMap fun d =>
    if keepUnderMaxPrice max_price (bestPrice (d.offers.getD [])) then
      some (projectDoc d)
    else none

/-- The prices list `[o["price"] for o in offers]` of src/main.py line
184: `none` when some offer lacks the `price` key (Python raises
`KeyError`). -/
def offerPrices : List OfferDoc → Option (List ℚ)
  | [] => some []
  | o :: os =>
    match o.price, offerPrices os with
    | some p, some ps => some (p :: ps)
    | _, _ => none

/-- The cheapest-offer price of a record: the minimum of its offers'
prices; `none` when the offers list is empty or some offer lacks a
price. -/
def minOfferPrice (offers : List OfferDoc) : Option ℚ :=
  match offerPrices offers with
  | some (p :: ps) => some (ps.foldl min p)
  | _ => none

/-- Embedding of the sort key of src/main.py line 184:
`min([o["price"] for o in h.get("offers", [])]) if h.get("offers") else 1e9`.
`none` models the `KeyError` raised by `o["price"]` on an offer without a
price (only reachable when the offers list is non-empty). -/
def sortKeyOpt (h : Projection) : Option ℚ :=
  match h.offers with
  | [] => some 1000000000
  | _ :: _ => minOfferPrice h.offers

/-- The numeric sort key of a projection whose key is defined (the only
case in which Python's sort proceeds). -/
def keyQ (h : Projection) : ℚ :=
  (sortKeyOpt h).getD 0

/-- Embedding of `hotels.sort(key=...)` (src/main.py line 184).  Python
first evaluates the key for every element — a `KeyError` there aborts the
call — and then sorts stably ascending by key; a stable sort's output is
unique, so the stable `List.insertionSort` gives exactly Python's
result. -/
def sortHotels (hs : List Projection) : Except Unit (List Projection) :=
  if hs.all (fun h => (sortKeyOpt h).isSome) then
    Except.ok (hs.insertionSort (fun a b => keyQ a ≤ keyQ b))
  else Except.error ()

/-- Embedding of `list_hotels` (src/main.py lines 148-186) with storage
reachable: seed if empty, fetch up to `limit` records matching the
pushed-down filter, apply the `max_price` post-filter and projection,
and sort by the line-184 key.  `Except.error ()` models a Python
exception escaping the handler. -/
def list_hotels (store : List HotelDoc) (destination : Option String)
    (max_price min_rating : Option ℚ) (limit : Nat) :
    Except Unit (List Projection) :=
  sortHotels
    (postFilter max_price
      (get_documents (ensure_seed_hotels store) (buildFilter destination min_rating) limit))


/-! ### Helper lemmas -/

theorem foldl_min_le (l : List ℚ) : ∀ (a : ℚ) (x : ℚ), x ∈ a :: l → l.foldl min a ≤ x := by
  induction l with
  | nil =>
    intro a x hx
    have hx2 : x = a := by simpa using hx
    subst hx2
    exact le_refl x
  | cons b l ih =>
    intro a x hx
    have hh : l.foldl min (min a b) ≤ min a b :=
      ih (min a b) (min a b) (List.mem_cons_self _ _)
    simp only [List.foldl_cons]
    rcases List.mem_cons.mp hx with h1 | hx2
    · subst h1
      exact le_trans hh (min_le_left _ _)
    · rcases List.mem_cons.mp hx2 with h1 | h3
      · subst h1
        exact le_trans hh (min_le_right _ _)
      · exact ih (min a b) x (List.mem_cons_of_mem _ h3)

theorem foldl_min_mem (l : List ℚ) : ∀ a : ℚ, l.foldl min a ∈ a :: l := by
  induction l with
  | nil => intro a; exact List.mem_singleton.mpr rfl
  | cons b l ih =>
    intro a
    have h := ih (min a b)
    rcases List.mem_cons.mp h with h | h
    · rcases min_choice a b with hm | hm <;> rw [List.foldl_cons, h, hm]
      · exact List.mem_cons_self _ _
      · exact List.mem_cons_of_mem _ (List.mem_cons_self _ _)
    · exact List.mem_cons_of_mem _ (List.mem_cons_of_mem _ h)

theorem offerPrices_eq_map {offers : List OfferDoc} {l : List ℚ}
    (h : offerPrices offers = some l) :
    l = offers.map (fun o => o.price.getD 0) := by
  induction offers generalizing l with
  | nil => simp [offerPrices] at h; simp [h]
  | cons o os ih =>
    rw [offerPrices] at h
    cases hp : o.price with
    | none => rw [hp] at h; exact absurd h (by simp)
    | some p =>
      rw [hp] at h
      cases hos : offerPrices os with
      | none => rw [hos] at h; exact absurd h (by simp)
      | some ps =>
        rw [hos] at h
        simp only [Option.some.injEq] at h
        subst h
        simp [List.map_cons, hp, ih hos]

theorem offerPrices_isSome_iff {offers : List OfferDoc} :
    (offerPrices offers).isSome = true ↔ ∀ o ∈ offers, o.price ≠ none := by
  induction offers with
  | nil => simp [offerPrices]
  | cons o os ih =>
    rw [offerPrices]
    cases hp : o.price with
    | none => simp [hp]
    | some p =>
      cases hos : offerPrices os with
      | none =>
        rw [hos] at ih
        simp only [Option.isSome_none, Bool.false_eq_true, false_iff] at ih
        push_neg at ih
        obtain ⟨o2, ho2, hpo2⟩ := ih
        simp only [Option.isSome_none, Bool.false_eq_true, false_iff]
        push_neg
        exact ⟨o2, List.mem_cons_of_mem _ ho2, hpo2⟩
      | some ps =>
        rw [hos] at ih
        simp only [Option.isSome_some, true_iff] at ih
        simp only [Option.isSome_some, true_iff]
        intro o2 ho2
        rcases List.mem_cons.mp ho2 with rfl | ho2
        · simp [hp]
        · exact ih o2 ho2

theorem bestPrice_eq_minOfferPrice {offers : List OfferDoc} {l : List ℚ}
    (h : offerPrices offers = some l) :
    bestPrice offers = minOfferPrice offers := by
  have hl := offerPrices_eq_map h
  cases offers with
  | nil =>
    simp [offerPrices] at h
    simp [bestPrice, minOfferPrice, offerPrices]
  | cons o os =>
    subst hl
    rw [bestPrice, minOfferPrice, h]
    simp [List.map_cons]

theorem minOfferPrice_isSome_of_nonempty {offers : List OfferDoc}
    (hne : offers ≠ []) (hall : ∀ o ∈ offers, o.price ≠ none) :
    ∃ q, minOfferPrice offers = some q := by
  have hs : (offerPrices offers).isSome = true := offerPrices_isSome_iff.mpr hall
  obtain ⟨l, hl⟩ := Option.isSome_iff_exists.mp hs
  have hmap := offerPrices_eq_map hl
  cases offers with
  | nil => exact absurd rfl hne
  | cons o os =>
    rw [minOfferPrice, hl, hmap]
    exact ⟨_, rfl⟩


theorem sortHotels_ok_iff {hs res : List Projection} :
    sortHotels hs = Except.ok res ↔
      (∀ h ∈ hs, (sortKeyOpt h).isSome = true) ∧
        res = hs.insertionSort (fun a b => keyQ a ≤ keyQ b) := by
  rw [sortHotels]
  split
  · rename_i hall
    rw [List.all_eq_true] at hall
    constructor
    · intro hok
      refine ⟨hall, ?_⟩
      exact (Except.ok.injEq _ _).mp hok.symm |>.symm ▸ rfl
    · intro ⟨_, hres⟩
      rw [hres]
  · rename_i hnall
    constructor
    · intro hok
      exact absurd hok (by simp)
    · intro ⟨hall, _⟩
      exact absurd (List.all_eq_true.mpr hall) hnall

theorem sortHotels_ok_perm {hs res : List Projection}
    (h : sortHotels hs = Except.ok res) : res.Perm hs := by
  obtain ⟨-, hres⟩ := sortHotels_ok_iff.mp h
  rw [hres]
  exact List.perm_insertionSort _ hs

theorem mem_postFilter_iff {mp : Option ℚ} {docs : List HotelDoc} {h : Projection} :
    h ∈ postFilter mp docs ↔
      ∃ d ∈ docs,
        keepUnderMaxPrice mp (bestPrice (d.offers.getD [])) = true ∧ h = projectDoc d := by
  rw [postFilter, List.mem_filterMap]
  constructor
  · rintro ⟨d, hd, hfd⟩
    by_cases hk : keepUnderMaxPrice mp (bestPrice (d.offers.getD [])) = true
    · rw [if_pos hk] at hfd
      exact ⟨d, hd, hk, (Option.some.injEq _ _).mp hfd |>.symm⟩
    · rw [if_neg hk] at hfd
      exact absurd hfd (by simp)
  · rintro ⟨d, hd, hk, rfl⟩
    exact ⟨d, hd, by rw [if_pos hk]⟩

theorem list_hotels_ok_elim {store : List HotelDoc} {destination : Option String}
    {max_price min_rating : Option ℚ} {limit : Nat} {res : List Projection}
    (h : list_hotels store destination max_price min_rating limit = Except.ok res) :
    (∀ p ∈ res, (sortKeyOpt p).isSome = true) ∧
      ∀ p ∈ res,
        ∃ d ∈ get_documents (ensure_seed_hotels store) (buildFilter destination min_rating) limit,
          keepUnderMaxPrice max_price (bestPrice (d.offers.getD [])) = true ∧ p = projectDoc d := by
  rw [list_hotels] at h
  obtain ⟨hall, -⟩ := sortHotels_ok_iff.mp h
  have hperm := sortHotels_ok_perm h
  constructor
  · intro p hp
    exact hall p (hperm.mem_iff.mp hp)
  · intro p hp
    exact mem_postFilter_iff.mp (hperm.mem_iff.mp hp)

theorem sortKeyOpt_isSome_elim {p : Projection}
    (h : (sortKeyOpt p).isSome = true) :
    p.offers = [] ∨ (p.offers ≠ [] ∧ ∀ o ∈ p.offers, o.price ≠ none) := by
  cases hoff : p.offers with
  | nil => exact Or.inl rfl
  | cons o os =>
    right
    refine ⟨by simp, ?_⟩
    rw [sortKeyOpt, hoff] at h
    simp only at h
    have hps : (offerPrices (o :: os)).isSome = true := by
      cases hp : offerPrices (o :: os) with
      | none => simp [minOfferPrice, hp] at h
      | some l => rfl
    exact offerPrices_isSome_iff.mp hps

theorem sortHotels_ok_pairwise {hs res : List Projection}
    (h : sortHotels hs = Except.ok res) :
    res.Pairwise (fun a b => keyQ a ≤ keyQ b) := by
  obtain ⟨-, hres⟩ := sortHotels_ok_iff.mp h
  rw [hres]
  haveI : IsTotal Projection (fun a b => keyQ a ≤ keyQ b) := ⟨fun a b => le_total _ _⟩
  haveI : IsTrans Projection (fun a b => keyQ a ≤ keyQ b) :=
    ⟨fun _ _ _ hab hbc => le_trans hab hbc⟩
  exact List.sorted_insertionSort _ hs

theorem keyQ_of_offers_nil {p : Projection} (h : p.offers = []) :
    keyQ p = 1000000000 := by
  rw [keyQ, sortKeyOpt, h]
  rfl

theorem sortKeyOpt_of_offers_nonempty {p : Projection} (h : p.offers ≠ []) :
    sortKeyOpt p = minOfferPrice p.offers := by
  cases hoff : p.offers with
  | nil => exact absurd hoff h
  | cons o os => rw [sortKeyOpt, hoff]

theorem keyQ_of_sortKeyOpt_some {p : Projection} {q : ℚ} (h : sortKeyOpt p = some q) :
    keyQ p = q := by
  rw [keyQ, h]
  rfl

/-! ### Concrete records used in scenario theorems -/

/-- The City Center Boutique Hotel demo record (the third element of
`sample_hotels`). -/
def cityDoc : HotelDoc :=
  { oid := none
    name := some "City Center Boutique Hotel"
    location := some "Tokyo, Japan"
    rating := some (mkRat 86 10)
    reviews := some 5120
    image := some "https://images.unsplash.com/photo-1551882547-ff40c63fe5fa?q=80&w=2070&auto=format&fit=crop"
    offers := some
      [ { name := some "Booking.com", price := some 128 },
        { name := some "Expedia", price := some 119 },
        { name := some "Hotels.com", price := some 130 } ] }

/-- A stored record whose offers list is present but empty. -/
def dEmptyOffers : HotelDoc :=
  { oid := some "e1", name := some "No Offers Inn", location := some "Nowhere",
    rating := some 7, reviews := some 3, image := none, offers := some [] }

/-- A stored record with a single offer priced above the 1e9 sort
sentinel. -/
def dBig : HotelDoc :=
  { oid := some "b1", name := some "Unaffordable Palace", location := some "Somewhere",
    rating := some 9, reviews := some 12, image := none,
    offers := some [ { name := some "Booking.com", price := some 2000000000 } ] }

/-- A stored record with no location field and an empty offers list. -/
def dNoLoc : HotelDoc :=
  { oid := some "n1", name := some "Locationless Lodge", location := none,
    rating := some 6, reviews := some 2, image := none, offers := some [] }

/-- A stored record whose single offer has no price key. -/
def dNoPrice : HotelDoc :=
  { oid := some "p1", name := some "Broken Hotel", location := some "Bugtown",
    rating := some 5, reviews := some 1, image := none,
    offers := some [ { name := some "Trivago", price := none } ] }

/-- A second record whose offers mix a priced and an unpriced offer. -/
def dMixedPrices : HotelDoc :=
  { oid := some "p2", name := some "Half Broken Hotel", location := some "Bugville",
    rating := some 4, reviews := some 8, image := none,
    offers := some [ { name := some "Expedia", price := some 75 },
                     { name := some "Trivago", price := none } ] }

/-- A stored record missing its rating, reviews and offers keys. -/
def dMissingFields : HotelDoc :=
  { oid := some "m1", name := some "Sparse Hotel", location := some "Sparseville",
    rating := none, reviews := none, image := none, offers := none }

/-- A record whose cheapest offer (500) exceeds the max price used in the
C4 scenario. -/
def dExpensive : HotelDoc :=
  { oid := some "x1", name := some "Expensive Hotel", location := some "Richville",
    rating := some 8, reviews := some 10, image := none,
    offers := some [ { name := some "Booking.com", price := some 500 } ] }

/-- A record whose cheapest offer (100) is under the max price used in the
C4 scenario. -/
def dCheap : HotelDoc :=
  { oid := some "c1", name := some "Cheap Hotel", location := some "Poorville",
    rating := some 7, reviews := some 20, image := none,
    offers := some [ { name := some "Booking.com", price := some 100 } ] }

/-! ### Claim theorems -/

/-- C1: for every call to `list_hotels` with `max_price` supplied that
returns a list, every returned hotel either has an empty offers list or
has cheapest-offer price (the minimum price among its offers) at most
`max_price`; and hotels with no offers are never excluded by the
`max_price` filter (every fetched record with an empty offers list is in
the returned list). -/
theorem C1_max_price_filter (store : List HotelDoc) (destination : Option String)
    (mp : ℚ) (min_rating : Option ℚ) (limit : Nat) (res : List Projection)
    (hok : list_hotels store destination (some mp) min_rating limit = Except.ok res) :
    (∀ p ∈ res, p.offers = [] ∨
      (minOfferPrice p.offers ≠ none ∧ ∀ q, minOfferPrice p.offers = some q → q ≤ mp)) ∧
    (∀ d ∈ get_documents (ensure_seed_hotels store) (buildFilter destination min_rating) limit,
      d.offers.getD [] = [] → projectDoc d ∈ res) := by
  obtain ⟨hkeys, hsrc⟩ := list_hotels_ok_elim hok
  constructor
  · intro p hp
    obtain ⟨d, hd, hkeep, hpd⟩ := hsrc p hp
    have hkey := hkeys p hp
    rcases sortKeyOpt_isSome_elim hkey with hnil | ⟨hne, hall⟩
    · exact Or.inl hnil
    · right
      have hps : (offerPrices p.offers).isSome = true := offerPrices_isSome_iff.mpr hall
      obtain ⟨l, hl⟩ := Option.isSome_iff_exists.mp hps
      have hbm : bestPrice p.offers = minOfferPrice p.offers := bestPrice_eq_minOfferPrice hl
      obtain ⟨q0, hq0⟩ := minOfferPrice_isSome_of_nonempty hne hall
      refine ⟨by rw [hq0]; simp, ?_⟩
      intro q hq
      have hoffeq : p.offers = d.offers.getD [] := by
        subst hpd
        rfl
      rw [← hoffeq, hbm, hq] at hkeep
      rw [keepUnderMaxPrice] at hkeep
      simp only [Bool.not_eq_true', decide_eq_false_iff_not, not_lt] at hkeep
      exact hkeep
  · intro d hd hoff
    have hkeep : keepUnderMaxPrice (some mp) (bestPrice (d.offers.getD [])) = true := by
      rw [hoff]
      rfl
    have hmem : projectDoc d ∈
        postFilter (some mp)
          (get_documents (ensure_seed_hotels store) (buildFilter destination min_rating) limit) :=
      mem_postFilter_iff.mpr ⟨d, hd, hkeep, rfl⟩
    rw [list_hotels] at hok
    exact (sortHotels_ok_perm hok).mem_iff.mpr hmem

/-- Witness for C1: a store holding one hotel with an empty offers list,
filtered with `max_price = 150`; the hotel passes through the filter. -/
theorem C1_max_price_filter_witness :
    projectDoc dEmptyOffers ∈ [projectDoc dEmptyOffers] :=
  (C1_max_price_filter [dEmptyOffers] none 150 none 20 [projectDoc dEmptyOffers] rfl).2
    dEmptyOffers (by decide) rfl

/-- The second clause of claim C2, as stated: in the returned list, every
hotel whose offers list is empty appears strictly after every hotel that
has at least one offer. -/
def offersEmptyLast (res : List Projection) : Prop :=
  ∀ (i j : Nat) (hi : i < res.length) (hj : j < res.length),
    (res.get ⟨i, hi⟩).offers = [] → (res.get ⟨j, hj⟩).offers ≠ [] → j < i

/-- C2 counterexample: the sentinel for empty-offers hotels is the finite
value 1e9, not infinity.  A store holding a hotel whose only offer costs
2e9 and a hotel with an empty offers list returns the empty-offers hotel
FIRST, so an empty-offers hotel does not appear after every hotel with an
offer. -/
theorem C2_sentinel_cex :
    list_hotels [dBig, dEmptyOffers] none none none 20 =
      Except.ok [projectDoc dEmptyOffers, projectDoc dBig] ∧
    (projectDoc dEmptyOffers).offers = [] ∧
    (projectDoc dBig).offers ≠ [] ∧
    ¬ offersEmptyLast [projectDoc dEmptyOffers, projectDoc dBig] := by
  refine ⟨rfl, rfl, by decide, ?_⟩
  intro hlast
  have h10 := hlast 0 1 (by decide) (by decide) rfl (by decide)
  exact absurd h10 (by decide)

/-- C2 (amended): every returned list is sorted ascending by the sort key
of line 184, where the key of a hotel with offers is its cheapest-offer
price and the key of a hotel with an empty offers list is the sentinel
1e9 (not infinity); consequently every hotel with offers that appears
after an empty-offers hotel has cheapest-offer price at least 1e9 —
equivalently, empty-offers hotels appear after all hotels whose cheapest
offer is below 1e9. -/
theorem C2_sorted_by_key (store : List HotelDoc) (destination : Option String)
    (max_price min_rating : Option ℚ) (limit : Nat) (res : List Projection)
    (hok : list_hotels store destination max_price min_rating limit = Except.ok res) :
    res.Pairwise (fun a b => keyQ a ≤ keyQ b) ∧
    (∀ p ∈ res, p.offers = [] → keyQ p = 1000000000) ∧
    (∀ p ∈ res, p.offers ≠ [] → minOfferPrice p.offers = some (keyQ p)) ∧
    (∀ (l1 : List Projection) (e : Projection) (l2 : List Projection),
      res = l1 ++ e :: l2 → e.offers = [] →
      ∀ p ∈ l2, 1000000000 ≤ keyQ p) := by
  have hkeys := (list_hotels_ok_elim hok).1
  rw [list_hotels] at hok
  have hpw := sortHotels_ok_pairwise hok
  refine ⟨hpw, ?_, ?_, ?_⟩
  · intro p _ hnil
    exact keyQ_of_offers_nil hnil
  · intro p hp hne
    have h1 : sortKeyOpt p = minOfferPrice p.offers := sortKeyOpt_of_offers_nonempty hne
    have h2 := hkeys p hp
    rw [h1] at h2
    obtain ⟨q, hq⟩ := Option.isSome_iff_exists.mp h2
    rw [keyQ_of_sortKeyOpt_some (h1.trans hq)]
    exact hq
  · intro l1 e l2 hsplit hnil p hp
    rw [hsplit] at hpw
    have hmid := (List.pairwise_append.mp hpw).2.1
    have hrel := (List.pairwise_cons.mp hmid).1 p hp
    rw [keyQ_of_offers_nil hnil] at hrel
    exact hrel

/-- Witness for C2 (amended): a two-hotel store with cheapest prices 100
and 500 returns a list whose keys are pairwise ascending. -/
theorem C2_sorted_by_key_witness :
    List.Pairwise (fun a b => keyQ a ≤ keyQ b)
      [projectDoc dCheap, projectDoc dExpensive] :=
  (C2_sorted_by_key [dExpensive, dCheap] none none none 20
    [projectDoc dCheap, projectDoc dExpensive] rfl).1

/-- C3: against an empty hotel collection (storage reachable), a call with
no filters and `limit = 20` seeds exactly the four demo hotels and
returns all four, ordered City Center Boutique Hotel (cheapest offer
119), Seaside Vista Resort (176), Alpine Lodge & Spa (239), Lagoon
Overwater Villas (598). -/
theorem C3_seed_scenario :
    ensure_seed_hotels [] = sample_hotels ∧
    sample_hotels.length = 4 ∧
    (list_hotels [] none none none 20).map
        (fun l => l.map fun p => (p.name, minOfferPrice p.offers)) =
      Except.ok
        [(some "City Center Boutique Hotel", some 119),
         (some "Seaside Vista Resort", some 176),
         (some "Alpine Lodge & Spa", some 239),
         (some "Lagoon Overwater Villas", some 598)] :=
  ⟨rfl, rfl, rfl⟩

/-- C4: the `limit` cap is applied to the storage fetch before the
`max_price` post-filter and the result is never re-limited afterwards:
every returned list has length at most `limit`; and in the concrete
scenario below (`limit = 1`, `max_price = 200`) the call returns an empty
list even though the stored record `dCheap` matches the pushed-down
predicate and has cheapest offer 100 ≤ 200 — the fetch limit was consumed
by `dExpensive`, which the post-filter then dropped without
replacement. -/
theorem C4_limit_before_filter :
    (∀ (store : List HotelDoc) (destination : Option String)
        (max_price min_rating : Option ℚ) (limit : Nat) (res : List Projection),
      list_hotels store destination max_price min_rating limit = Except.ok res →
      res.length ≤ limit) ∧
    (list_hotels [dExpensive, dCheap] none (some 200) none 1 = Except.ok [] ∧
     dCheap ∈ [dExpensive, dCheap] ∧
     matchesFilter (buildFilter none none) dCheap = true ∧
     minOfferPrice (dCheap.offers.getD []) = some 100 ∧
     (100 : ℚ) ≤ 200) := by
  constructor
  · intro store destination max_price min_rating limit res hok
    rw [list_hotels] at hok
    obtain ⟨-, hres⟩ := sortHotels_ok_iff.mp hok
    rw [hres, List.length_insertionSort]
    refine le_trans (List.length_filterMap_le _ _) ?_
    rw [get_documents]
    exact le_trans (Nat.le_of_eq (List.length_take _ _)) (min_le_left _ _)
  · exact ⟨rfl, by decide, by decide, rfl, by norm_num⟩

/-- Witness for C4: the concrete scenario of the second conjunct
instantiates the universal length bound of the first. -/
theorem C4_limit_before_filter_witness : ([] : List Projection).length ≤ 1 :=
  C4_limit_before_filter.1 [dExpensive, dCheap] none (some 200) none 1 [] rfl

/-- C5: the seed step is idempotent: run against an already non-empty
collection it inserts nothing (the collection is unchanged), and running
it twice always equals running it once, so the demo records are never
duplicated. -/
theorem C5_seed_idempotent :
    (∀ store : List HotelDoc, store ≠ [] → ensure_seed_hotels store = store) ∧
    (∀ store : List HotelDoc,
      ensure_seed_hotels (ensure_seed_hotels store) = ensure_seed_hotels store) := by
  have hne : ∀ store : List HotelDoc, store ≠ [] → ensure_seed_hotels store = store := by
    intro store h
    rw [ensure_seed_hotels, if_pos (List.length_pos.mpr h)]
  refine ⟨hne, ?_⟩
  intro store
  by_cases h : store = []
  · subst h
    exact hne _ (by simp [ensure_seed_hotels, sample_hotels])
  · rw [hne store h, hne store h]

/-- Witness for C5: seeding an already seeded collection changes
nothing. -/
theorem C5_seed_idempotent_witness :
    ensure_seed_hotels sample_hotels = sample_hotels :=
  C5_seed_idempotent.1 sample_hotels (by simp [sample_hotels])

/-- The property claimed by C6 of one returned hotel: it has a location,
and that location contains `dst` as a substring case-insensitively (a
hotel with no location field does not satisfy it for any `dst`). -/
def locationHasSub (dst : String) (p : Projection) : Prop :=
  (p.location.map fun loc => containsCI dst loc).getD false = true

theorem matchesFilter_location {dst : String} {mr : Option ℚ} {d : HotelDoc}
    (hne : dst ≠ "") (hm : matchesFilter (buildFilter (some dst) mr) d = true) :
    (d.location.map fun loc => containsCI dst loc).getD false = true := by
  rw [matchesFilter] at hm
  rw [Bool.and_eq_true] at hm
  obtain ⟨h1, -⟩ := hm
  have hb : (buildFilter (some dst) mr).locationRegexCI = some dst := by
    rw [buildFilter]
    simp [hne]
  rw [hb] at h1
  cases hl : d.location with
  | none =>
    rw [hl] at h1
    simp at h1
  | some loc =>
    rw [hl] at h1
    simpa using h1

/-- C6 counterexample: `destination = ""` counts as supplied, but Python's
`if destination:` treats it as absent, so no location predicate is built;
a stored record without a location field is then returned even though its
location does not contain the destination (it has no location at all). -/
theorem C6_empty_destination_cex :
    list_hotels [dNoLoc] (some "") none none 20 = Except.ok [projectDoc dNoLoc] ∧
    ¬ locationHasSub "" (projectDoc dNoLoc) := by
  refine ⟨rfl, ?_⟩
  intro h
  rw [locationHasSub] at h
  exact absurd h (by decide)

/-- C6 (amended): for every call with a NON-EMPTY destination supplied
that returns a list, every returned hotel has a location that contains
the destination string as a substring, compared case-insensitively (an
empty destination applies no location filter at all — see C10). -/
theorem C6_destination_filter (store : List HotelDoc) (dst : String)
    (max_price min_rating : Option ℚ) (limit : Nat) (res : List Projection)
    (hne : dst ≠ "")
    (hok : list_hotels store (some dst) max_price min_rating limit = Except.ok res) :
    ∀ p ∈ res, locationHasSub dst p := by
  obtain ⟨-, hsrc⟩ := list_hotels_ok_elim hok
  intro p hp
  obtain ⟨d, hd, -, hpd⟩ := hsrc p hp
  rw [get_documents] at hd
  have hdm := (List.mem_filter.mp (List.take_subset _ _ hd)).2
  have hloc := matchesFilter_location hne hdm
  subst hpd
  exact hloc

/-- Witness for C6 (amended): `destination = "Japan"` against the freshly
seeded store returns exactly the Tokyo hotel, whose location contains
"Japan". -/
theorem C6_destination_filter_witness :
    locationHasSub "Japan" (projectDoc cityDoc) :=
  C6_destination_filter [] "Japan" none none 20 [projectDoc cityDoc]
    (by decide) rfl (projectDoc cityDoc) (List.mem_singleton.mpr rfl)

/-- C7: the claim (and spec §7) says malformed stored records never make
`list_hotels` fail.  The projection step does tolerate a missing rating,
reviews or offers key via the defaults 0.0 / 0 / [] — the first four
conjuncts — but the claim's "no error is ever raised for any record
shape" is contradicted by the code: a record whose non-empty offers list
contains an offer without a price key makes the whole call fail in the
sort key (`o["price"]`, src/main.py line 184), shown by the last
conjunct.  The code contradicts the spec's intended error model. -/
theorem C7_default_coercions :
    (projectDoc dMissingFields).rating = 0 ∧
    (projectDoc dMissingFields).reviews = 0 ∧
    (projectDoc dMissingFields).offers = [] ∧
    list_hotels [dMissingFields] none none none 20 =
      Except.ok [projectDoc dMissingFields] ∧
    list_hotels [dNoPrice] none none none 20 = Except.error () :=
  ⟨rfl, rfl, rfl, rfl, rfl⟩

/-- C8: in the `max_price` post-filter, an offer lacking a price key is
treated as price 0, so (prices being non-negative per the data model) a
hotel with at least one price-less offer has `best_price` 0 and is never
excluded by the filter for any non-negative `max_price`; its projection
always reaches the post-filter output. -/
theorem C8_priceless_offer (offers : List OfferDoc)
    (hnn : ∀ o ∈ offers, ∀ p : ℚ, o.price = some p → 0 ≤ p)
    (hmiss : ∃ o ∈ offers, o.price = none) :
    bestPrice offers = some 0 ∧
    (∀ mp : ℚ, 0 ≤ mp → keepUnderMaxPrice (some mp) (bestPrice offers) = true) ∧
    (∀ (mp : ℚ) (docs : List HotelDoc) (d : HotelDoc), 0 ≤ mp → d ∈ docs →
      d.offers = some offers → projectDoc d ∈ postFilter (some mp) docs) := by
  have hpos : ∀ x ∈ offers.map (fun o => o.price.getD 0), 0 ≤ x := by
    intro x hx
    obtain ⟨o, ho, rfl⟩ := List.mem_map.mp hx
    cases hp : o.price with
    | none => simp [hp]
    | some p => simpa [hp] using hnn o ho p hp
  have hzero : (0 : ℚ) ∈ offers.map (fun o => o.price.getD 0) := by
    obtain ⟨o, ho, hp⟩ := hmiss
    exact List.mem_map.mpr ⟨o, ho, by rw [hp]; rfl⟩
  have hbp : bestPrice offers = some 0 := by
    rw [bestPrice]
    cases hmap : offers.map (fun o => o.price.getD 0) with
    | nil =>
      rw [hmap] at hzero
      exact absurd hzero (List.not_mem_nil 0)
    | cons p ps =>
      rw [hmap] at hzero hpos
      have h1 : ps.foldl min p ≤ 0 := foldl_min_le ps p 0 hzero
      have h2 : 0 ≤ ps.foldl min p := hpos _ (foldl_min_mem ps p)
      show some (ps.foldl min p) = some 0
      rw [le_antisymm h1 h2]
  have hkeep : ∀ mp : ℚ, 0 ≤ mp →
      keepUnderMaxPrice (some mp) (bestPrice offers) = true := by
    intro mp hmp
    rw [hbp, keepUnderMaxPrice]
    simp only [Bool.not_eq_true', decide_eq_false_iff_not, not_lt]
    exact hmp
  refine ⟨hbp, hkeep, ?_⟩
  intro mp docs d hmp hd hdo
  refine mem_postFilter_iff.mpr ⟨d, hd, ?_, rfl⟩
  rw [hdo]
  exact hkeep mp hmp

/-- Witness for C8: the record `dNoPrice`, whose single offer lacks a
price, passes the post-filter with `max_price = 50`. -/
theorem C8_priceless_offer_witness :
    bestPrice [{ name := some "Trivago", price := none }] = some 0 ∧
    keepUnderMaxPrice (some 50)
      (bestPrice [{ name := some "Trivago", price := none }]) = true ∧
    projectDoc dNoPrice ∈ postFilter (some 50) [dNoPrice] := by
  have h := C8_priceless_offer [{ name := some "Trivago", price := none }]
    (by
      intro o ho p hp
      rw [List.mem_singleton] at ho
      subst ho
      exact Option.noConfusion hp)
    ⟨{ name := some "Trivago", price := none }, List.mem_singleton.mpr rfl, rfl⟩
  exact ⟨h.1, h.2.1 50 (by norm_num),
    h.2.2 50 [dNoPrice] dNoPrice (by norm_num) (List.mem_singleton.mpr rfl) rfl⟩

/-- C9: the sort key of src/main.py line 184 reads `o["price"]` with no
default, so a stored record whose non-empty offers list contains an offer
without a price key makes the `list_hotels` call fail instead of
returning a list. -/
theorem C9_sort_key_failure :
    dMixedPrices.offers =
      some [ { name := some "Expedia", price := some 75 },
             { name := some "Trivago", price := none } ] ∧
    list_hotels [dMixedPrices] none none none 20 = Except.error () :=
  ⟨rfl, rfl⟩

/-- C10: supplying `destination = ""` behaves exactly like omitting the
destination: Python's `if destination:` is false for the empty string, so
no location predicate is added and the whole call is identical. -/
theorem C10_empty_destination_noop (store : List HotelDoc)
    (max_price min_rating : Option ℚ) (limit : Nat) :
    list_hotels store (some "") max_price min_rating limit =
      list_hotels store none max_price min_rating limit := rfl

end HotelService
